import Mathlib

/-!
Verification development for the event-loop / timer platform and OTA requestor
state machine of `ota_model.py`.

Shallow embedding conventions:
* Wall-clock reads (`time.time()`) are modelled by a function `wall : Nat → Int`
  giving the millisecond reading of the k-th read performed by the platform;
  the platform state carries a ghost counter `reads` of reads performed so far.
* Timer callbacks and contexts are opaque values, modelled as natural-number
  identifiers.  Invoking `callback(context)` is modelled by recording the pair
  `(callback, context)` in an invocation trace; in the source, timer callbacks
  only post events back to the queue and never mutate the timer registry or
  clock directly, so this is faithful.
* The event queue is modelled by the list of dequeue outcomes the loop
  observes: a real event, the `None` shutdown sentinel, or a `queue.Empty`
  timeout.
* The externally supplied event handler is opaque: passing an event to it is
  recorded in a dispatch trace.
* Python runtime errors (AttributeError, RuntimeError) are modelled with
  `Except PyError`.
-/

namespace OtaModel

/-- `Status` enum of the source. -/
inductive Status
  | NO_ERROR
  | INVALID_STATE
  | RESOURCES_EXHAUSTED
deriving DecidableEq, Repr

/-- One entry of `Platform._timers`: the dict
`{"deadline": ..., "callback": ..., "context": ...}`. -/
structure TimerEntry where
  deadline : Int
  callback : Nat
  context : Nat
deriving DecidableEq, Repr

/-- The (callback, context) identity of a timer entry, which is also the
record of one synchronous invocation `callback(context)`. -/
def ident (t : TimerEntry) : Nat × Nat := (t.callback, t.context)

/-- The mutable state of `Platform` (queue excluded: the queue is modelled as
the list of dequeue outcomes fed to the loop).  `reads` is a ghost counter of
wall-clock reads performed so far. -/
structure Platform where
  last_time_ms : Int
  elapsed_ms : Int
  timers : List TimerEntry
  running : Bool
  reads : Nat
deriving DecidableEq, Repr

/-- `Platform.__init__` (queue aside). -/
def Platform.init : Platform :=
  { last_time_ms := 0, elapsed_ms := 0, timers := [], running := true, reads := 0 }

/-- `Platform.update_clocking`: read the wall clock, advance `elapsed_ms` by
the wall delta, remember the reading in `last_time_ms`. -/
def update_clocking (wall : Nat → Int) (s : Platform) : Platform :=
  let now_ms := wall s.reads
  { s with elapsed_ms := s.elapsed_ms + (now_ms - s.last_time_ms),
           last_time_ms := now_ms,
           reads := s.reads + 1 }

/-- `Platform._find_timer`: first index whose entry matches the
(callback, context) identity, else `None`. -/
def find_timer (callback context : Nat) : List TimerEntry → Option Nat
  | [] => none
  | t :: ts =>
    if t.callback = callback ∧ t.context = context then some 0
    else (find_timer callback context ts).map (fun i => i + 1)

/-- `Platform._handle_start_timer`: refresh the clock, build the entry with
`deadline = elapsed_ms + expiry_ms`, then replace in place on identity match
or append. -/
def handle_start_timer (wall : Nat → Int) (expiry_ms : Int) (callback context : Nat)
    (s : Platform) : Platform :=
  let s1 := update_clocking wall s
  let timer_entry : TimerEntry :=
    { deadline := s1.elapsed_ms + expiry_ms, callback := callback, context := context }
  match find_timer callback context s1.timers with
  | none => { s1 with timers := s1.timers ++ [timer_entry] }
  | some idx => { s1 with timers := s1.timers.set idx timer_entry }

/-- The expiry test of the scan: `self._elapsed_ms >= timer["deadline"]`. -/
def expired_by (elapsed : Int) (t : TimerEntry) : Bool := decide (elapsed ≥ t.deadline)

/-- `Platform.process_timers`: refresh the clock, scan `enumerate(self._timers)`
invoking every expired entry's callback and recording its index, then delete
the recorded indices from highest to lowest.  Returns the new state and the
trace of synchronous invocations `(callback, context)` in scan order. -/
def process_timers (wall : Nat → Int) (s : Platform) : Platform × List (Nat × Nat) :=
  let s1 := update_clocking wall s
  let hits := s1.timers.enum.filter (fun it => expired_by s1.elapsed_ms it.2)
  let to_delete := hits.map (fun it => it.1)
  ({ s1 with timers := to_delete.foldr (fun i acc => acc.eraseIdx i) s1.timers },
   hits.map (fun it => ident it.2))

/-- `Platform.fast_forward_clock_for_testing`: one `process_timers` pass, then
advance `elapsed_ms` by `num_ms`, then reset `last_time_ms` to the current wall
reading.  Returns the invocations made by the flush. -/
def fast_forward_clock_for_testing (wall : Nat → Int) (num_ms : Int)
    (s : Platform) : Platform × List (Nat × Nat) :=
  let r := process_timers wall s
  let s1 := { r.1 with elapsed_ms := r.1.elapsed_ms + num_ms }
  let now_ms := wall s1.reads
  ({ s1 with last_time_ms := now_ms, reads := s1.reads + 1 }, r.2)

/-- The `Event` class hierarchy of the source (payload callbacks/contexts as
opaque identifiers, block data dropped as in the source's `BlockReceivedEvent`). -/
inductive Event
  | TimerDoneEvent (callback context : Nat)
  | StartTimerEvent (expiry_ms : Int) (callback context : Nat)
  | RunWorkEvent (callback context : Nat)
  | BlockReceivedEvent
deriving DecidableEq, Repr

/-- Whether an event is a `StartTimerEvent` (the `isinstance` test of the loop). -/
def isStartTimerEvent : Event → Bool
  | .StartTimerEvent _ _ _ => true
  | _ => false

/-- One dequeue outcome observed by `run_event_loop`: a real event, the `None`
shutdown sentinel, or a `queue.Empty` timeout. -/
inductive QueueItem
  | item (e : Event)
  | sentinel
  | timeout
deriving DecidableEq, Repr

/-- Observable dispatches of the loop: an event passed to the external
`event_handler`, or a timer callback invoked by `process_timers`. -/
inductive Dispatch
  | handler (e : Event)
  | fired (callback context : Nat)
deriving DecidableEq, Repr

/-- One iteration body of `run_event_loop` for one dequeue outcome:
sentinel sets `_running = False` and breaks (no timer scan); a
`StartTimerEvent` goes to `_handle_start_timer`, every other event to the
external handler; then `process_timers` runs. -/
def loop_body (wall : Nat → Int) (s : Platform) (q : QueueItem) :
    Platform × List Dispatch :=
  match q with
  | .sentinel => ({ s with running := false }, [])
  | .timeout =>
    let r := process_timers wall s
    (r.1, r.2.map (fun p => Dispatch.fired p.1 p.2))
  | .item e =>
    match e with
    | .StartTimerEvent d cb ctx =>
      let s1 := handle_start_timer wall d cb ctx s
      let r := process_timers wall s1
      (r.1, r.2.map (fun p => Dispatch.fired p.1 p.2))
    | _ =>
      let r := process_timers wall s
      (r.1, Dispatch.handler e :: r.2.map (fun p => Dispatch.fired p.1 p.2))

/-- The `while self._running` loop of `run_event_loop` over a list of dequeue
outcomes, accumulating the dispatch trace. -/
def run_loop (wall : Nat → Int) (s : Platform) : List QueueItem → Platform × List Dispatch
  | [] => (s, [])
  | q :: qs =>
    if s.running then
      let r := loop_body wall s q
      let rest := run_loop wall r.1 qs
      (rest.1, r.2 ++ rest.2)
    else (s, [])

/-- `Platform.run_event_loop`: set `_last_time_ms` from a wall read, then loop. -/
def run_event_loop (wall : Nat → Int) (s : Platform) (qs : List QueueItem) :
    Platform × List Dispatch :=
  run_loop wall { s with last_time_ms := wall s.reads, reads := s.reads + 1 } qs

/-- At most one pending timer per (callback, context) identity: the list of
identities has no duplicate. -/
def identityUnique (ts : List TimerEntry) : Prop := (ts.map ident).Nodup

instance (ts : List TimerEntry) : Decidable (identityUnique ts) := by
  unfold identityUnique; infer_instance

/-! ### OTA requestor state machine (`OtaRequestor` / `OtaRequestorInterface`)

Python runtime errors are modelled with `Except PyError`.  A Python attribute
access `obj.name` is modelled by `getattr_name`, which fails with
`AttributeError` on objects that expose no plain `name` attribute — in
particular on a function object: the source does
`from threading import current_thread` and then reads `current_thread.name`,
i.e. an attribute of the *function* `threading.current_thread` (which only has
`__name__`), never calling it, so the read raises `AttributeError` on every
thread. -/

/-- A Python runtime error. -/
inductive PyError
  | attributeError (attr : String)
  | runtimeError (msg : String)
deriving DecidableEq, Repr

/-- The Python objects the thread-affinity check can touch: the imported
function `threading.current_thread` itself, or an actual `Thread` object
carrying its thread name. -/
inductive PyObject
  | functionObject (py_qualname : String)
  | threadObject (thread_name : String)
deriving DecidableEq, Repr

/-- Python attribute access `obj.name`: `Thread` objects expose `name`;
function objects do not (they expose `__name__` only), so the access raises
`AttributeError`. -/
def getattr_name : PyObject → Except PyError String
  | .functionObject _ => .error (.attributeError "name")
  | .threadObject n => .ok n

/-- The name `current_thread` in scope in `ota_model.py`: the imported
function object, not a `Thread`. -/
def current_thread : PyObject := .functionObject "current_thread"

/-- `OtaRequestor.ensure_proper_thread`, parameterised by the `Thread` object
actually executing the call (which the source never consults: it reads
`current_thread.name`, an attribute of the imported function object). -/
def ensure_proper_thread (running_thread : PyObject) : Except PyError Unit := do
  let n ← getattr_name current_thread
  if n ≠ "event_loop" then
    .error (.runtimeError ("Running from " ++ n ++ " instead of event_loop"))
  else
    .ok ()

/-- `OtaRequestor` state constants. -/
def STATE_IDLE : Nat := 0
def STATE_QUERYING : Nat := 1
def STATE_WAITING_FOR_NEXT_QUERY : Nat := 2
def STATE_DOWNLOADING : Nat := 3
def STATE_REQUESTING_APPLY : Nat := 4
def STATE_APPLYING : Nat := 5
def STATE_BOOTING_INTO_NEW : Nat := 6
def STATE_ESTABLISHING_PROVIDER_CONNECTION : Nat := 7
def STATE_ESTABLISHING_BDX_CONNECTION : Nat := 8

/-- `RequestorWorkItem` type constants. -/
def TRIGGER_IMMEDIATE : Nat := 0
def CANCEL_OTA : Nat := 1
def SEND_QUERY_IMAGE_REQUEST : Nat := 2
def SEND_APPLY_UPDATE_REQUEST : Nat := 3
def SEND_UPDATE_APPLIED : Nat := 4

/-- Observable state of an `OtaRequestor` for the call-in methods: the state
field plus traces of the diagnostics printed for discarded call-ins, the work
items passed to `driver.schedule_requestor_work`, and the
`(fabric_index, node_id)` pairs passed to `driver.establish_provider_session`. -/
structure Requestor where
  state : Nat
  diagnostics : List String
  scheduled_work : List Nat
  provider_sessions : List (Nat × Nat)
deriving DecidableEq, Repr

/-- A freshly constructed `OtaRequestor` (state `STATE_IDLE`, empty traces). -/
def Requestor.init : Requestor :=
  { state := STATE_IDLE, diagnostics := [], scheduled_work := [], provider_sessions := [] }

/-- `OtaRequestor.on_trigger_immediate_query` (note: the source performs no
thread-affinity check in this call-in).  If not `STATE_IDLE`, log and return;
else move to `STATE_ESTABLISHING_PROVIDER_CONNECTION` and call the driver's
`establish_provider_session(1, 1234)`. -/
def on_trigger_immediate_query (running_thread : PyObject) (r : Requestor) :
    Except PyError Requestor :=
  if r.state ≠ STATE_IDLE then
    .ok { r with diagnostics :=
            r.diagnostics ++ ["ERROR: request to trigger immediate query when not idle!"] }
  else
    .ok { r with state := STATE_ESTABLISHING_PROVIDER_CONNECTION,
                 provider_sessions := r.provider_sessions ++ [(1, 1234)] }

/-- `OtaRequestor.on_provider_session_established`: thread-affinity check
first, then discard with a diagnostic unless in
`STATE_ESTABLISHING_PROVIDER_CONNECTION`, else schedule the
`SEND_QUERY_IMAGE_REQUEST` work item. -/
def on_provider_session_established (running_thread : PyObject) (r : Requestor) :
    Except PyError Requestor := do
  let _ ← ensure_proper_thread running_thread
  if r.state ≠ STATE_ESTABLISHING_PROVIDER_CONNECTION then
    .ok { r with diagnostics :=
            r.diagnostics ++ ["ERROR: Got unexpected session establishment call-in!"] }
  else
    .ok { r with scheduled_work := r.scheduled_work ++ [SEND_QUERY_IMAGE_REQUEST] }

/-- `OtaRequestor.on_query_image_response`: thread-affinity check, then no
further action in the source. -/
def on_query_image_response (running_thread : PyObject) (r : Requestor) :
    Except PyError Requestor := do
  let _ ← ensure_proper_thread running_thread
  .ok r

/-! ### Object construction and `Initialize` (`OtaRequestorInterface`)

Python objects are records of *optional* fields: a field is `none` when the
constructor that built the object never assigned the attribute, and reading it
raises `AttributeError`. -/

/-- `OtaContext.__init__`. -/
structure OtaContext where
  in_progress : Bool
  provider_node_id : Nat
  download_node_id : Nat
  fabric_index : Nat
  file_designator : String
deriving DecidableEq, Repr

/-- A fresh `OtaContext()`. -/
def OtaContext.new : OtaContext :=
  { in_progress := false, provider_node_id := 0, download_node_id := 0,
    fabric_index := 0, file_designator := "" }

/-- The attribute dictionary of a requestor object, as left by whichever
`__init__` ran.  Driver and image processor are opaque identifiers. -/
structure RequestorObject where
  ota_requestor_driver : Option Nat
  image_processor : Option Nat
  ota_context : Option OtaContext
  state : Option Nat
deriving DecidableEq, Repr

/-- `OtaRequestorInterface.__init__(driver, image_processor)`: assigns the
driver, the image processor and a fresh `_ota_context`. -/
def interface_init (driver ip : Nat) : RequestorObject :=
  { ota_requestor_driver := some driver, image_processor := some ip,
    ota_context := some OtaContext.new, state := none }

/-- `OtaRequestor.__init__(driver, image_processor)`: assigns the image
processor, the driver and `_state = STATE_IDLE`; it does **not** call the base
constructor and assigns no `_ota_context`. -/
def requestor_init (driver ip : Nat) : RequestorObject :=
  { ota_requestor_driver := some driver, image_processor := some ip,
    ota_context := none, state := some STATE_IDLE }

/-- `OtaRequestorDriver.load_stored_ota_context`: always `NO_ERROR` in the
source. -/
def load_stored_ota_context (ctx : OtaContext) : Status := Status.NO_ERROR

/-- Driver methods `Initialize` may reach, recorded as a call trace. -/
inductive DriverCall
  | loadStoredOtaContext
  | clearStoredOtaContext
deriving DecidableEq, Repr

/-- `OtaRequestorInterface.Initialize`: evaluates
`self._ota_requestor_driver.load_stored_ota_context(self._ota_context)` —
reading the `_ota_context` attribute raises `AttributeError` when it was never
assigned, before the driver method is invoked — then clears state on a
non-`NO_ERROR` status.  Returns the object, the status and the trace of driver
calls made. -/
def Initialize (o : RequestorObject) :
    Except PyError (RequestorObject × Status × List DriverCall) := do
  let _ ← match o.ota_requestor_driver with
          | none => Except.error (PyError.attributeError "_ota_requestor_driver")
          | some d => Except.ok d
  let ctx ← match o.ota_context with
            | none => Except.error (PyError.attributeError "_ota_context")
            | some c => Except.ok c
  let status := load_stored_ota_context ctx
  if status ≠ Status.NO_ERROR then
    .ok ({ o with ota_context := some OtaContext.new }, status,
         [DriverCall.loadStoredOtaContext, DriverCall.clearStoredOtaContext])
  else
    .ok (o, status, [DriverCall.loadStoredOtaContext])

/-! ### Helper lemmas on lists and on the timer scan -/

theorem map_snd_enum_filter {α β : Type} (p : α → Bool) (f : α → β) (l : List α) :
    (l.enum.filter (fun it => p it.2)).map (fun it => f it.2)
      = (l.filter p).map f := by
  have key : (l.enum.filter (fun it => p it.2)).map Prod.snd = l.filter p := by
    have h2 : (l.enum.map Prod.snd).filter p
        = (l.enum.filter (p ∘ Prod.snd)).map Prod.snd := List.filter_map Prod.snd l.enum
    have h3 : l.enum.map Prod.snd = l := by
      rw [List.enum_eq_enumFrom]; exact List.enumFrom_map_snd 0 l
    rw [h3] at h2
    exact h2.symm
  calc (l.enum.filter (fun it => p it.2)).map (fun it => f it.2)
      = ((l.enum.filter (fun it => p it.2)).map Prod.snd).map f := by
        rw [List.map_map]; rfl
    _ = (l.filter p).map f := by rw [key]

theorem foldr_eraseIdx_map_succ {α : Type} (idxs : List Nat) (a : α) (l : List α) :
    (idxs.map (fun i => i + 1)).foldr (fun i acc => acc.eraseIdx i) (a :: l)
      = a :: idxs.foldr (fun i acc => acc.eraseIdx i) l := by
  induction idxs with
  | nil => rfl
  | cons i is ih => simp only [List.map_cons, List.foldr_cons, ih, List.eraseIdx_cons_succ]

/-- Deleting, from highest index to lowest, exactly the indices at which a
scan found `p` to hold leaves precisely the entries where `p` fails: index
bookkeeping of earlier entries is never perturbed by a later deletion. -/
theorem foldr_eraseIdx_enum_filter {α : Type} (p : α → Bool) (l : List α) :
    ((l.enum.filter (fun it => p it.2)).map (fun it => it.1)).foldr
        (fun i acc => acc.eraseIdx i) l
      = l.filter (fun a => !p a) := by
  induction l with
  | nil => rfl
  | cons a as ih =>
    have hcomp : ((fun it : Nat × α => p it.2) ∘ Prod.map (fun i : Nat => i + 1) id)
        = fun it : Nat × α => p it.2 := by
      funext it; cases it; rfl
    have hfst : ((fun it : Nat × α => it.1) ∘ Prod.map (fun i : Nat => i + 1) id)
        = fun it : Nat × α => it.1 + 1 := by
      funext it; cases it; rfl
    rw [List.enum_cons']
    by_cases hpa : p a = true
    · rw [List.filter_cons_of_pos (by simpa using hpa), List.map_cons]
      rw [List.filter_map, hcomp, List.map_map, hfst]
      have : (fun it : Nat × α => it.1 + 1)
          = (fun i : Nat => i + 1) ∘ (fun it : Nat × α => it.1) := rfl
      rw [this, ← List.map_map]
      rw [List.foldr_cons, foldr_eraseIdx_map_succ, List.eraseIdx_cons_zero]
      rw [ih, List.filter_cons_of_neg (by simpa using hpa)]
    · rw [List.filter_cons_of_neg (by simpa using hpa)]
      rw [List.filter_map, hcomp, List.map_map, hfst]
      have : (fun it : Nat × α => it.1 + 1)
          = (fun i : Nat => i + 1) ∘ (fun it : Nat × α => it.1) := rfl
      rw [this, ← List.map_map]
      rw [foldr_eraseIdx_map_succ, ih]
      rw [List.filter_cons_of_pos (by simpa using hpa)]

/-- Canonical form of `process_timers`: after the clock refresh, the fired
invocations are exactly the identities of the expired entries in scan order,
and the surviving registry is exactly the non-expired entries in order. -/
theorem process_timers_eq (wall : Nat → Int) (s : Platform) :
    process_timers wall s
      = ({ update_clocking wall s with
            timers := (update_clocking wall s).timers.filter
              (fun t => !expired_by (update_clocking wall s).elapsed_ms t) },
         ((update_clocking wall s).timers.filter
            (fun t => expired_by (update_clocking wall s).elapsed_ms t)).map ident) := by
  simp only [process_timers]
  rw [foldr_eraseIdx_enum_filter, map_snd_enum_filter]

theorem countP_band_split {α : Type} (f g : α → Bool) (l : List α) :
    l.countP (fun a => f a && g a) + l.countP (fun a => f a && !g a) = l.countP f := by
  induction l with
  | nil => rfl
  | cons a as ih =>
    rw [List.countP_cons, List.countP_cons, List.countP_cons]
    cases hf : f a <;> cases hg : g a <;> simp [hf, hg] <;> omega

/-- In a registry with no duplicate identity, any fixed identity is carried by
at most one entry. -/
theorem nodup_countP_ident_le_one (l : List TimerEntry) (h : identityUnique l)
    (q : Nat × Nat) : l.countP (fun t => decide (ident t = q)) ≤ 1 := by
  induction l with
  | nil => simp
  | cons t ts ih =>
    rw [identityUnique, List.map_cons, List.nodup_cons] at h
    rw [List.countP_cons]
    by_cases hq : ident t = q
    · have hz : ts.countP (fun t => decide (ident t = q)) = 0 := by
        rw [List.countP_eq_zero]
        intro a ha
        simp only [decide_eq_true_eq]
        intro hcon
        exact h.1 (hq ▸ hcon ▸ List.mem_map_of_mem ident ha)
      simp [hq, hz]
    · simpa [hq] using ih h.2

theorem find_timer_eq_none_iff (callback context : Nat) (ts : List TimerEntry) :
    find_timer callback context ts = none ↔ ∀ t ∈ ts, ident t ≠ (callback, context) := by
  induction ts with
  | nil => simp [find_timer]
  | cons t ts ih =>
    unfold find_timer
    by_cases hc : t.callback = callback ∧ t.context = context
    · simp only [if_pos hc]
      constructor
      · intro h; exact absurd h (by simp)
      · intro h
        exact absurd (show ident t = (callback, context) by
          simp [ident, hc.1, hc.2]) (h t (List.mem_cons_self t ts))
    · rw [if_neg hc, Option.map_eq_none', ih]
      constructor
      · intro h u hu
        rcases List.mem_cons.mp hu with h1 | h2
        · subst h1
          intro hid
          rw [ident, Prod.mk.injEq] at hid
          exact hc hid
        · exact h u h2
      · intro h u hu
        exact h u (List.mem_cons_of_mem t hu)

theorem find_timer_some (callback context : Nat) (ts : List TimerEntry) (i : Nat)
    (hf : find_timer callback context ts = some i) :
    ∃ t, ts[i]? = some t ∧ ident t = (callback, context) := by
  induction ts generalizing i with
  | nil => simp [find_timer] at hf
  | cons t ts ih =>
    unfold find_timer at hf
    by_cases hc : t.callback = callback ∧ t.context = context
    · rw [if_pos hc] at hf
      cases hf
      exact ⟨t, by simp, by simp [ident, hc.1, hc.2]⟩
    · rw [if_neg hc] at hf
      rcases Option.map_eq_some'.mp hf with ⟨j, hj, rfl⟩
      rcases ih j hj with ⟨u, hu, hid⟩
      exact ⟨u, by simpa using hu, hid⟩

theorem set_eq_self_of_getElem? {α : Type} :
    ∀ (l : List α) (i : Nat) (a : α), l[i]? = some a → l.set i a = l
  | [], _, _ => by simp
  | x :: xs, 0, a => by
      intro h
      simp only [List.getElem?_cons_zero, Option.some.injEq] at h
      simp [List.set, h]
  | x :: xs, i + 1, a => by
      intro h
      simp only [List.getElem?_cons_succ] at h
      simp [List.set, set_eq_self_of_getElem? xs i a h]

theorem eq_of_countP_eq_one {α : Type} (p : α → Bool) (l : List α)
    (h : l.countP p = 1) (a b : α) (ha : a ∈ l) (hb : b ∈ l)
    (hpa : p a = true) (hpb : p b = true) : a = b := by
  rw [List.countP_eq_length_filter, List.length_eq_one] at h
  obtain ⟨x, hx⟩ := h
  have h1 : a ∈ l.filter p := List.mem_filter.mpr ⟨ha, hpa⟩
  have h2 : b ∈ l.filter p := List.mem_filter.mpr ⟨hb, hpb⟩
  rw [hx, List.mem_singleton] at h1 h2
  rw [h1, h2]

theorem countP_ident_eq_map (q : Nat × Nat) (l : List TimerEntry) :
    l.countP (fun t => decide (ident t = q))
      = (l.map ident).countP (fun x => decide (x = q)) := by
  rw [List.countP_map]; rfl

/-- Every identity invoked by a `process_timers` scan has no entry left in the
registry afterwards (assuming the registry had no duplicate identities). -/
theorem fired_removed (wall : Nat → Int) (s : Platform) (h : identityUnique s.timers) :
    ∀ p ∈ (process_timers wall s).2,
      (process_timers wall s).1.timers.countP (fun t => decide (ident t = p)) = 0 := by
  have hu : identityUnique (update_clocking wall s).timers := h
  rw [process_timers_eq]
  intro p hp
  rw [List.mem_map] at hp
  obtain ⟨t, ht, hident⟩ := hp
  rw [List.mem_filter] at ht
  have hone : (update_clocking wall s).timers.countP
      (fun a => decide (ident a = p) && expired_by (update_clocking wall s).elapsed_ms a) ≥ 1 := by
    have : 0 < (update_clocking wall s).timers.countP
        (fun a => decide (ident a = p) && expired_by (update_clocking wall s).elapsed_ms a) := by
      rw [List.countP_pos_iff]
      exact ⟨t, ht.1, by simp [hident, ht.2]⟩
    omega
  have hsplit := countP_band_split
    (fun a => decide (ident a = p))
    (fun a => expired_by (update_clocking wall s).elapsed_ms a)
    (update_clocking wall s).timers
  have hle := nodup_countP_ident_le_one _ hu p
  rw [List.countP_filter]
  have : (update_clocking wall s).timers.countP
      (fun a => decide (ident a = p) && !expired_by (update_clocking wall s).elapsed_ms a) = 0 := by
    omega
  simpa using this

/-! ### Claim theorems -/

/-- C9: if after the clock refresh no pending timer is expired, then
`process_timers` makes no invocations and returns exactly the
clock-refreshed state; the refresh itself changes neither the timer registry
nor the running flag. -/
theorem C9_empty_scan_is_frame (wall : Nat → Int) (s : Platform)
    (h : ∀ t ∈ s.timers, ¬ (update_clocking wall s).elapsed_ms ≥ t.deadline) :
    process_timers wall s = (update_clocking wall s, [])
    ∧ (update_clocking wall s).timers = s.timers
    ∧ (update_clocking wall s).running = s.running := by
  refine ⟨?_, rfl, rfl⟩
  rw [process_timers_eq]
  have hmem : ∀ t ∈ (update_clocking wall s).timers,
      expired_by (update_clocking wall s).elapsed_ms t = false := by
    intro t ht
    simpa [expired_by] using h t ht
  have h1 : (update_clocking wall s).timers.filter
      (fun t => expired_by (update_clocking wall s).elapsed_ms t) = [] := by
    rw [List.filter_eq_nil_iff]
    intro t ht
    simp [hmem t ht]
  have h2 : (update_clocking wall s).timers.filter
      (fun t => !expired_by (update_clocking wall s).elapsed_ms t)
      = (update_clocking wall s).timers := by
    rw [List.filter_eq_self]
    intro t ht
    simp [hmem t ht]
  rw [h1, h2, List.map_nil]

/-- C9 witness. -/
theorem C9_empty_scan_is_frame_witness :
    process_timers (fun _ => 10) { Platform.init with timers := [⟨50, 1, 2⟩] }
      = (update_clocking (fun _ => 10) { Platform.init with timers := [⟨50, 1, 2⟩] }, []) := by
  have h := C9_empty_scan_is_frame (fun _ => 10) { Platform.init with timers := [⟨50, 1, 2⟩] }
    (by decide)
  exact h.1

/-- C2: in one `process_timers` scan, after the clock refresh, (a) exactly the
expired entries are invoked, once each, in scan order; (b) the registry
afterwards holds exactly the non-expired entries — the highest-to-lowest
deletion removed exactly the fired entries without perturbing the others;
(c) under the no-duplicate-identity invariant no identity is invoked twice in
the scan; and (d) every fired identity has no remaining registry entry, so it
cannot fire again. -/
theorem C2_process_fires_once_and_removes (wall : Nat → Int) (s : Platform)
    (h : identityUnique s.timers) :
    (process_timers wall s).2
      = ((update_clocking wall s).timers.filter
          (fun t => expired_by (update_clocking wall s).elapsed_ms t)).map ident
    ∧ (process_timers wall s).1.timers
      = (update_clocking wall s).timers.filter
          (fun t => !expired_by (update_clocking wall s).elapsed_ms t)
    ∧ (∀ q : Nat × Nat,
        (process_timers wall s).2.countP (fun p => decide (p = q)) ≤ 1)
    ∧ (∀ p ∈ (process_timers wall s).2,
        (process_timers wall s).1.timers.countP (fun t => decide (ident t = p)) = 0) := by
  have hu : identityUnique (update_clocking wall s).timers := h
  refine ⟨?_, ?_, ?_, fired_removed wall s h⟩
  · rw [process_timers_eq]
  · rw [process_timers_eq]
  · intro q
    rw [process_timers_eq]
    rw [List.countP_map, List.countP_filter]
    calc (update_clocking wall s).timers.countP
          (fun t => decide (ident t = q) && expired_by (update_clocking wall s).elapsed_ms t)
        ≤ (update_clocking wall s).timers.countP (fun t => decide (ident t = q)) :=
          List.countP_mono_left (fun t _ hb => by
            simp only [Bool.and_eq_true, decide_eq_true_eq] at hb
            simpa using hb.1)
      _ ≤ 1 := nodup_countP_ident_le_one _ hu q

/-- C2 witness: registry with one expired and one pending timer. -/
theorem C2_process_fires_once_and_removes_witness :
    (process_timers (fun _ => 0) { Platform.init with timers := [⟨0, 1, 2⟩, ⟨9, 3, 4⟩] }).2
      = [(1, 2)]
    ∧ (process_timers (fun _ => 0)
        { Platform.init with timers := [⟨0, 1, 2⟩, ⟨9, 3, 4⟩] }).1.timers
      = [⟨9, 3, 4⟩] := by
  have h := C2_process_fires_once_and_removes (fun _ => 0)
    { Platform.init with timers := [⟨0, 1, 2⟩, ⟨9, 3, 4⟩] } (by decide)
  refine ⟨?_, ?_⟩
  · rw [h.1]; decide
  · rw [h.2.1]; decide

/-- C1: starting a timer preserves the at-most-one-entry-per-identity
invariant; afterwards exactly one entry carries the (callback, context)
identity, and it carries the new deadline `elapsed_ms + expiry_ms` computed
after the clock refresh; on an identity match the entry is overwritten in
place (registry length unchanged), otherwise it is appended; and in any
subsequent scan the identity fires exactly once when the new deadline has
expired (zero times otherwise) and is then removed, so only the most recent
deadline is ever observed to fire, exactly once. -/
theorem C1_replace_by_identity (wall wall2 : Nat → Int) (d : Int) (cb ctx : Nat)
    (s : Platform) (h : identityUnique s.timers) :
    identityUnique (handle_start_timer wall d cb ctx s).timers
    ∧ (handle_start_timer wall d cb ctx s).timers.countP
        (fun t => decide (ident t = (cb, ctx))) = 1
    ∧ (∀ t ∈ (handle_start_timer wall d cb ctx s).timers, ident t = (cb, ctx) →
        t.deadline = (update_clocking wall s).elapsed_ms + d)
    ∧ ((find_timer cb ctx s.timers).isSome →
        (handle_start_timer wall d cb ctx s).timers.length = s.timers.length)
    ∧ (find_timer cb ctx s.timers = none →
        (handle_start_timer wall d cb ctx s).timers
          = s.timers ++ [⟨(update_clocking wall s).elapsed_ms + d, cb, ctx⟩])
    ∧ ((process_timers wall2 (handle_start_timer wall d cb ctx s)).2.countP
          (fun p => decide (p = (cb, ctx)))
        = if (update_clocking wall2 (handle_start_timer wall d cb ctx s)).elapsed_ms
              ≥ (update_clocking wall s).elapsed_ms + d then 1 else 0)
    ∧ (∀ p ∈ (process_timers wall2 (handle_start_timer wall d cb ctx s)).2,
        (process_timers wall2 (handle_start_timer wall d cb ctx s)).1.timers.countP
          (fun t => decide (ident t = p)) = 0) := by
  have hte : ident ⟨(update_clocking wall s).elapsed_ms + d, cb, ctx⟩ = (cb, ctx) := rfl
  have core :
      identityUnique (handle_start_timer wall d cb ctx s).timers
      ∧ (handle_start_timer wall d cb ctx s).timers.countP
          (fun t => decide (ident t = (cb, ctx))) = 1
      ∧ (∀ t ∈ (handle_start_timer wall d cb ctx s).timers, ident t = (cb, ctx) →
          t.deadline = (update_clocking wall s).elapsed_ms + d)
      ∧ ((find_timer cb ctx s.timers).isSome →
          (handle_start_timer wall d cb ctx s).timers.length = s.timers.length)
      ∧ (find_timer cb ctx s.timers = none →
          (handle_start_timer wall d cb ctx s).timers
            = s.timers ++ [⟨(update_clocking wall s).elapsed_ms + d, cb, ctx⟩]) := by
    cases hf : find_timer cb ctx s.timers with
    | none =>
      have hnone : ∀ t ∈ s.timers, ident t ≠ (cb, ctx) :=
        (find_timer_eq_none_iff cb ctx s.timers).mp hf
      have hres : (handle_start_timer wall d cb ctx s).timers
          = s.timers ++ [⟨(update_clocking wall s).elapsed_ms + d, cb, ctx⟩] := by
        simp only [handle_start_timer]
        rw [show find_timer cb ctx (update_clocking wall s).timers
            = find_timer cb ctx s.timers from rfl, hf]
        rfl
      refine ⟨?_, ?_, ?_, ?_, fun _ => hres⟩
      · rw [identityUnique, hres, List.map_append]
        refine List.Nodup.append h (by simp) ?_
        intro a ha hb
        rw [List.mem_map] at ha
        obtain ⟨u, hu, hua⟩ := ha
        rw [List.map_singleton, List.mem_singleton] at hb
        exact hnone u hu (by rw [hua, hb, hte])
      · rw [hres, List.countP_append]
        have h0 : s.timers.countP (fun t => decide (ident t = (cb, ctx))) = 0 := by
          rw [List.countP_eq_zero]
          intro t ht
          simpa using hnone t ht
        rw [h0]
        simp [hte]
      · intro t ht hid
        rw [hres, List.mem_append] at ht
        rcases ht with ht | ht
        · exact absurd hid (hnone t ht)
        · rw [List.mem_singleton] at ht
          rw [ht]
      · intro hs
        simp at hs
    | some i =>
      obtain ⟨u, hu, hidu⟩ := find_timer_some cb ctx s.timers i hf
      have hres : (handle_start_timer wall d cb ctx s).timers
          = s.timers.set i ⟨(update_clocking wall s).elapsed_ms + d, cb, ctx⟩ := by
        simp only [handle_start_timer]
        rw [show find_timer cb ctx (update_clocking wall s).timers
            = find_timer cb ctx s.timers from rfl, hf]
        rfl
      have hlt : i < s.timers.length := by
        rcases List.getElem?_eq_some_iff.mp hu with ⟨hl, _⟩
        exact hl
      have hmap : (s.timers.set i
            ⟨(update_clocking wall s).elapsed_ms + d, cb, ctx⟩).map ident
          = s.timers.map ident := by
        rw [List.map_set]
        apply set_eq_self_of_getElem?
        rw [List.getElem?_map, hu]
        simp [hidu, hte]
      have hcount : (handle_start_timer wall d cb ctx s).timers.countP
          (fun t => decide (ident t = (cb, ctx))) = 1 := by
        rw [hres, countP_ident_eq_map, hmap, ← countP_ident_eq_map]
        have hle := nodup_countP_ident_le_one s.timers h (cb, ctx)
        have hge : 0 < s.timers.countP (fun t => decide (ident t = (cb, ctx))) := by
          rw [List.countP_pos_iff]
          exact ⟨u, List.getElem?_mem hu, by simp [hidu]⟩
        omega
      refine ⟨?_, hcount, ?_, ?_, ?_⟩
      · rw [identityUnique, hres, hmap]
        exact h
      · intro t ht hid
        have hmem : (⟨(update_clocking wall s).elapsed_ms + d, cb, ctx⟩ : TimerEntry)
            ∈ (handle_start_timer wall d cb ctx s).timers := by
          rw [hres]
          exact List.mem_set s.timers i hlt _
        have := eq_of_countP_eq_one (fun t => decide (ident t = (cb, ctx)))
          (handle_start_timer wall d cb ctx s).timers hcount t _ ht hmem
          (by simp [hid]) (by simp [hte])
        rw [this]
      · intro _
        rw [hres, List.length_set]
      · intro hcon
        cases hcon
  obtain ⟨hU, hC, hD, hLen, hApp⟩ := core
  refine ⟨hU, hC, hD, hLen, hApp, ?_, fired_removed wall2 _ hU⟩
  rw [process_timers_eq, List.countP_map, List.countP_filter]
  by_cases hexp : (update_clocking wall2 (handle_start_timer wall d cb ctx s)).elapsed_ms
      ≥ (update_clocking wall s).elapsed_ms + d
  · rw [if_pos hexp]
    have hcg : (update_clocking wall2 (handle_start_timer wall d cb ctx s)).timers.countP
        (fun t => decide (ident t = (cb, ctx))
          && expired_by (update_clocking wall2 (handle_start_timer wall d cb ctx s)).elapsed_ms t)
        = (update_clocking wall2 (handle_start_timer wall d cb ctx s)).timers.countP
            (fun t => decide (ident t = (cb, ctx))) := by
      apply List.countP_congr
      intro t ht
      simp only [Bool.and_eq_true, decide_eq_true_eq, expired_by, and_iff_left_iff_imp]
      intro hid
      have hd := hD t ht hid
      rw [hd]
      simpa using hexp
    exact hcg.trans hC
  · rw [if_neg hexp, List.countP_eq_zero]
    intro t ht hb
    simp only [Function.comp, Bool.and_eq_true, decide_eq_true_eq, expired_by] at hb
    have hd := hD t ht hb.1
    rw [hd] at hb
    exact hexp (by simpa using hb.2)

/-- C1 witness: replacing an existing timer for identity (1, 2). -/
theorem C1_replace_by_identity_witness :
    (handle_start_timer (fun _ => 0) 7 1 2
        { Platform.init with timers := [⟨5, 1, 2⟩] }).timers.countP
        (fun t => decide (ident t = (1, 2))) = 1
    ∧ (handle_start_timer (fun _ => 0) 7 1 2
        { Platform.init with timers := [⟨5, 1, 2⟩] }).timers.length = 1 := by
  have h := C1_replace_by_identity (fun _ => 0) (fun _ => 0) 7 1 2
    { Platform.init with timers := [⟨5, 1, 2⟩] } (by decide)
  refine ⟨h.2.1, (h.2.2.2.1 (by decide)).trans ?_⟩
  decide

/-- A clock refresh while wall time stands still only bumps the read counter. -/
theorem update_clocking_const (wall : Nat → Int) (s : Platform)
    (hw : wall s.reads = s.last_time_ms) :
    update_clocking wall s = { s with reads := s.reads + 1 } := by
  simp [update_clocking, hw]

/-- C6: `fast_forward_clock_for_testing` performs exactly one flush of pending
timers (its invocations are those of one `process_timers` pass), then advances
`elapsed_ms` by `ms`, then resets `last_time_ms` to the current wall reading;
consequently, with no wall time passing, a fast-forward of `ms` followed
immediately by a `process_timers` scan fires exactly the timers whose deadline
lay within `ms` beyond the pre-fast-forward elapsed time, and none scheduled
strictly beyond that window. -/
theorem C6_fast_forward_window (wall : Nat → Int) (ms : Int) (s : Platform)
    (hwall : ∀ k, wall k = s.last_time_ms) :
    (fast_forward_clock_for_testing wall ms s).2 = (process_timers wall s).2
    ∧ (fast_forward_clock_for_testing wall ms s).2
        = (s.timers.filter (fun t => expired_by s.elapsed_ms t)).map ident
    ∧ (fast_forward_clock_for_testing wall ms s).1.elapsed_ms = s.elapsed_ms + ms
    ∧ (fast_forward_clock_for_testing wall ms s).1.last_time_ms
        = wall ((process_timers wall s).1.reads)
    ∧ (process_timers wall (fast_forward_clock_for_testing wall ms s).1).2
        = (s.timers.filter
            (fun t => decide (s.elapsed_ms < t.deadline ∧ t.deadline ≤ s.elapsed_ms + ms))).map
              ident := by
  have hs : update_clocking wall s = { s with reads := s.reads + 1 } :=
    update_clocking_const wall s (hwall s.reads)
  have hproc : process_timers wall s
      = ({ s with
            reads := s.reads + 1,
            timers := s.timers.filter (fun t => !expired_by s.elapsed_ms t) },
         (s.timers.filter (fun t => expired_by s.elapsed_ms t)).map ident) := by
    rw [process_timers_eq, hs]
  have hff : fast_forward_clock_for_testing wall ms s
      = ({ s with
            reads := s.reads + 2,
            timers := s.timers.filter (fun t => !expired_by s.elapsed_ms t),
            elapsed_ms := s.elapsed_ms + ms,
            last_time_ms := wall (s.reads + 1) },
         (s.timers.filter (fun t => expired_by s.elapsed_ms t)).map ident) := by
    simp only [fast_forward_clock_for_testing, hproc]
  refine ⟨by rw [hff, hproc], by rw [hff], by rw [hff], by rw [hff, hproc], ?_⟩
  rw [hff]
  have hs2 : update_clocking wall
      ({ s with
          reads := s.reads + 2,
          timers := s.timers.filter (fun t => !expired_by s.elapsed_ms t),
          elapsed_ms := s.elapsed_ms + ms,
          last_time_ms := wall (s.reads + 1) } : Platform)
      = { s with
          reads := s.reads + 3,
          timers := s.timers.filter (fun t => !expired_by s.elapsed_ms t),
          elapsed_ms := s.elapsed_ms + ms,
          last_time_ms := wall (s.reads + 1) } := by
    have := update_clocking_const wall
      ({ s with
          reads := s.reads + 2,
          timers := s.timers.filter (fun t => !expired_by s.elapsed_ms t),
          elapsed_ms := s.elapsed_ms + ms,
          last_time_ms := wall (s.reads + 1) } : Platform)
      (by simp only []; rw [hwall, hwall])
    rw [this]
  rw [process_timers_eq, hs2]
  simp only [List.filter_filter]
  congr 1
  apply List.filter_congr
  intro t _
  simp only [expired_by, Bool.not_eq_true', ← decide_not, ← Bool.decide_and]
  apply decide_eq_decide.mpr
  omega

/-- C6 witness: one already-expired timer, one inside the window, one beyond. -/
theorem C6_fast_forward_window_witness :
    (fast_forward_clock_for_testing (fun _ => 0) 100
        { Platform.init with timers := [⟨0, 1, 1⟩, ⟨60, 2, 2⟩, ⟨101, 3, 3⟩] }).2
      = [(1, 1)]
    ∧ (process_timers (fun _ => 0)
        (fast_forward_clock_for_testing (fun _ => 0) 100
          { Platform.init with timers := [⟨0, 1, 1⟩, ⟨60, 2, 2⟩, ⟨101, 3, 3⟩] }).1).2
      = [(2, 2)] := by
  have h := C6_fast_forward_window (fun _ => 0) 100
    { Platform.init with timers := [⟨0, 1, 1⟩, ⟨60, 2, 2⟩, ⟨101, 3, 3⟩] }
    (fun _ => rfl)
  refine ⟨?_, ?_⟩
  · rw [h.2.1]; decide
  · rw [h.2.2.2.2]; decide

/-- `_handle_start_timer` touches only the registry beyond the clock refresh. -/
theorem handle_start_timer_clock (wall : Nat → Int) (d : Int) (cb ctx : Nat)
    (s : Platform) :
    (handle_start_timer wall d cb ctx s).elapsed_ms = (update_clocking wall s).elapsed_ms
    ∧ (handle_start_timer wall d cb ctx s).last_time_ms
        = (update_clocking wall s).last_time_ms
    ∧ (handle_start_timer wall d cb ctx s).reads = (update_clocking wall s).reads
    ∧ (handle_start_timer wall d cb ctx s).running = (update_clocking wall s).running := by
  simp only [handle_start_timer]
  cases find_timer cb ctx (update_clocking wall s).timers <;> exact ⟨rfl, rfl, rfl, rfl⟩

/-- The upserted entry is present in the registry after `_handle_start_timer`. -/
theorem handle_start_timer_mem (wall : Nat → Int) (d : Int) (cb ctx : Nat)
    (s : Platform) :
    (⟨(update_clocking wall s).elapsed_ms + d, cb, ctx⟩ : TimerEntry)
      ∈ (handle_start_timer wall d cb ctx s).timers := by
  simp only [handle_start_timer]
  cases hf : find_timer cb ctx (update_clocking wall s).timers with
  | none => simp
  | some i =>
    obtain ⟨u, hu, _⟩ := find_timer_some cb ctx _ i hf
    have hlt : i < (update_clocking wall s).timers.length :=
      (List.getElem?_eq_some_iff.mp hu).1
    exact List.mem_set _ i hlt _

/-- C8: a `StartTimerEvent` never invokes the timer callback synchronously:
the loop iteration handling it produces only dispatches originating from the
subsequent `process_timers` scan (in particular no handler dispatch happens
inside the upsert); the upsert merely records an entry with deadline
`elapsed_ms + expiry_ms`; and a zero-delta timer fires during the next scan
(whenever wall time has not gone backwards), not inside the upsert. -/
theorem C8_zero_delta_fires_only_in_scan (wall : Nat → Int) (d : Int)
    (cb ctx : Nat) (s : Platform) :
    (loop_body wall s (QueueItem.item (Event.StartTimerEvent d cb ctx))).2
      = (process_timers wall (handle_start_timer wall d cb ctx s)).2.map
          (fun p => Dispatch.fired p.1 p.2)
    ∧ (⟨(update_clocking wall s).elapsed_ms + d, cb, ctx⟩ : TimerEntry)
        ∈ (handle_start_timer wall d cb ctx s).timers
    ∧ (d = 0 →
        wall (handle_start_timer wall d cb ctx s).reads
          ≥ (handle_start_timer wall d cb ctx s).last_time_ms →
        (cb, ctx) ∈ (process_timers wall (handle_start_timer wall d cb ctx s)).2) := by
  refine ⟨rfl, handle_start_timer_mem wall d cb ctx s, ?_⟩
  intro hd hw
  subst hd
  rw [process_timers_eq]
  refine List.mem_map.mpr
    ⟨⟨(update_clocking wall s).elapsed_ms + 0, cb, ctx⟩, ?_, rfl⟩
  rw [List.mem_filter]
  obtain ⟨he, hl, hr, _⟩ := handle_start_timer_clock wall 0 cb ctx s
  refine ⟨handle_start_timer_mem wall 0 cb ctx s, ?_⟩
  simp only [expired_by, decide_eq_true_eq]
  rw [show (update_clocking wall (handle_start_timer wall 0 cb ctx s)).elapsed_ms
      = (handle_start_timer wall 0 cb ctx s).elapsed_ms
        + (wall (handle_start_timer wall 0 cb ctx s).reads
            - (handle_start_timer wall 0 cb ctx s).last_time_ms) from rfl]
  rw [he]
  omega

/-- C8 witness: a zero-delta timer is absent from the upsert's synchronous
invocations and fires in the following scan. -/
theorem C8_zero_delta_fires_only_in_scan_witness :
    (loop_body (fun _ => 0) Platform.init (QueueItem.item (Event.StartTimerEvent 0 4 5))).2
      = (process_timers (fun _ => 0)
          (handle_start_timer (fun _ => 0) 0 4 5 Platform.init)).2.map
          (fun p => Dispatch.fired p.1 p.2)
    ∧ (4, 5) ∈ (process_timers (fun _ => 0)
        (handle_start_timer (fun _ => 0) 0 4 5 Platform.init)).2 := by
  have h := C8_zero_delta_fires_only_in_scan (fun _ => 0) 0 4 5 Platform.init
  exact ⟨h.1, h.2.2 rfl (by decide)⟩

/-- Timer-firing dispatches are never handler dispatches. -/
theorem no_handler_in_fired (l : List (Nat × Nat)) (e2 : Event) :
    Dispatch.handler e2 ∉ l.map (fun p => Dispatch.fired p.1 p.2) := by
  intro hmem
  rw [List.mem_map] at hmem
  obtain ⟨p, _, hcon⟩ := hmem
  cases hcon

/-- Timer-firing dispatches contribute nothing to the handler-dispatch count. -/
theorem countP_handler_fired (l : List (Nat × Nat)) (e : Event) :
    (l.map (fun p => Dispatch.fired p.1 p.2)).countP
      (fun x => decide (x = Dispatch.handler e)) = 0 := by
  rw [List.countP_map, List.countP_eq_zero]
  intro p _
  simp

/-- C7: the loop intercepts every `StartTimerEvent`, delegating it to the
timer upsert and never passing it (or anything else, on that iteration) to
the external event handler; every other dequeued event is passed to the
external handler synchronously, exactly once, and the platform state is
touched only by the subsequent timer scan. -/
theorem C7_event_classification (wall : Nat → Int) (s : Platform) :
    (∀ d cb ctx,
      (loop_body wall s (QueueItem.item (Event.StartTimerEvent d cb ctx))).1
        = (process_timers wall (handle_start_timer wall d cb ctx s)).1
      ∧ ∀ e2, Dispatch.handler e2
          ∉ (loop_body wall s (QueueItem.item (Event.StartTimerEvent d cb ctx))).2)
    ∧ (∀ e, isStartTimerEvent e = false →
      (loop_body wall s (QueueItem.item e)).1 = (process_timers wall s).1
      ∧ (loop_body wall s (QueueItem.item e)).2.countP
          (fun x => decide (x = Dispatch.handler e)) = 1
      ∧ ∀ e2, Dispatch.handler e2 ∈ (loop_body wall s (QueueItem.item e)).2 → e2 = e) := by
  constructor
  · intro d cb ctx
    exact ⟨rfl, fun e2 => no_handler_in_fired _ e2⟩
  · intro e he
    have hcount : ∀ l : List (Nat × Nat),
        (Dispatch.handler e :: l.map (fun p => Dispatch.fired p.1 p.2)).countP
          (fun x => decide (x = Dispatch.handler e)) = 1 := by
      intro l
      rw [List.countP_cons, countP_handler_fired]
      simp
    have hmem : ∀ (l : List (Nat × Nat)) e2,
        Dispatch.handler e2 ∈ Dispatch.handler e :: l.map (fun p => Dispatch.fired p.1 p.2)
          → e2 = e := by
      intro l e2 hm
      rcases List.mem_cons.mp hm with h1 | h2
      · injection h1 with h
      · exact absurd h2 (no_handler_in_fired _ _)
    cases e with
    | StartTimerEvent d cb ctx => simp [isStartTimerEvent] at he
    | TimerDoneEvent cb ctx => exact ⟨rfl, hcount _, hmem _⟩
    | RunWorkEvent cb ctx => exact ⟨rfl, hcount _, hmem _⟩
    | BlockReceivedEvent => exact ⟨rfl, hcount _, hmem _⟩

/-- C7 witness: a `RunWorkEvent` reaches the handler exactly once and a
`StartTimerEvent` never does. -/
theorem C7_event_classification_witness :
    ((loop_body (fun _ => 0) Platform.init
        (QueueItem.item (Event.RunWorkEvent 1 2))).2.countP
      (fun x => decide (x = Dispatch.handler (Event.RunWorkEvent 1 2))) = 1)
    ∧ Dispatch.handler (Event.StartTimerEvent 3 1 2)
        ∉ (loop_body (fun _ => 0) Platform.init
            (QueueItem.item (Event.StartTimerEvent 3 1 2))).2 := by
  have h := C7_event_classification (fun _ => 0) Platform.init
  exact ⟨(h.2 (Event.RunWorkEvent 1 2) (by decide)).2.1, (h.1 3 1 2).2 _⟩

/-- A stopped loop consumes nothing and dispatches nothing. -/
theorem run_loop_not_running (wall : Nat → Int) (s : Platform)
    (h : s.running = false) (qs : List QueueItem) :
    run_loop wall s qs = (s, []) := by
  cases qs with
  | nil => rfl
  | cons q qs => simp [run_loop, h]

/-- A non-sentinel iteration leaves the running flag unchanged. -/
theorem loop_body_running (wall : Nat → Int) (s : Platform) (q : QueueItem)
    (h : q ≠ QueueItem.sentinel) :
    (loop_body wall s q).1.running = s.running := by
  cases q with
  | sentinel => exact absurd rfl h
  | timeout =>
    rw [show (loop_body wall s QueueItem.timeout).1
      = (process_timers wall s).1 from rfl, process_timers_eq]
    rfl
  | item e =>
    cases e with
    | StartTimerEvent d cb ctx =>
      rw [show (loop_body wall s (QueueItem.item (Event.StartTimerEvent d cb ctx))).1
          = (process_timers wall (handle_start_timer wall d cb ctx s)).1 from rfl,
        process_timers_eq]
      exact (handle_start_timer_clock wall d cb ctx s).2.2.2
    | TimerDoneEvent cb ctx =>
      rw [show (loop_body wall s (QueueItem.item (Event.TimerDoneEvent cb ctx))).1
          = (process_timers wall s).1 from rfl, process_timers_eq]
      rfl
    | RunWorkEvent cb ctx =>
      rw [show (loop_body wall s (QueueItem.item (Event.RunWorkEvent cb ctx))).1
          = (process_timers wall s).1 from rfl, process_timers_eq]
      rfl
    | BlockReceivedEvent =>
      rw [show (loop_body wall s (QueueItem.item Event.BlockReceivedEvent)).1
          = (process_timers wall s).1 from rfl, process_timers_eq]
      rfl

/-- Processing a sentinel-free batch keeps the loop running. -/
theorem run_loop_running (wall : Nat → Int) (qs : List QueueItem) :
    ∀ s : Platform, QueueItem.sentinel ∉ qs → s.running = true →
      (run_loop wall s qs).1.running = true := by
  induction qs with
  | nil => intro s _ hr; exact hr
  | cons q qs ih =>
    intro s hq hr
    have hqne : q ≠ QueueItem.sentinel := fun hcon =>
      hq (hcon ▸ List.mem_cons_self q qs)
    have hqs : QueueItem.sentinel ∉ qs := fun hcon =>
      hq (List.mem_cons_of_mem q hcon)
    simp only [run_loop, hr, if_true]
    exact ih _ hqs ((loop_body_running wall s q hqne).trans hr)

/-- Dequeuing the sentinel after a sentinel-free batch `qs`: the batch is
processed exactly as it would be alone, then the loop stops; nothing after
the sentinel is processed. -/
theorem run_loop_append_sentinel (wall : Nat → Int) (qs : List QueueItem) :
    ∀ (s : Platform) (rest : List QueueItem),
      QueueItem.sentinel ∉ qs → s.running = true →
      run_loop wall s (qs ++ QueueItem.sentinel :: rest)
        = ({ (run_loop wall s qs).1 with running := false },
           (run_loop wall s qs).2) := by
  induction qs with
  | nil =>
    intro s rest _ hr
    simp only [List.nil_append, run_loop, loop_body, hr, if_true]
    rw [run_loop_not_running wall _ rfl rest]
  | cons q qs ih =>
    intro s rest hq hr
    have hqne : q ≠ QueueItem.sentinel := fun hcon =>
      hq (hcon ▸ List.mem_cons_self q qs)
    have hqs : QueueItem.sentinel ∉ qs := fun hcon =>
      hq (List.mem_cons_of_mem q hcon)
    have hr1 : (loop_body wall s q).1.running = true :=
      (loop_body_running wall s q hqne).trans hr
    rw [List.cons_append, run_loop, if_pos hr, run_loop, if_pos hr]
    dsimp only
    rw [ih _ rest hqs hr1]

/-- C5: posting the `None` sentinel behind queued events makes the loop
process every event ahead of the sentinel exactly as it would without the
sentinel (same dispatches, same state), then transition to stopped and exit
at the sentinel itself: the sentinel produces no dispatch (it is never given
to the external handler and gets no classification step), everything queued
behind it is never processed, and the stopped loop never runs again. -/
theorem C5_shutdown_sentinel (wall : Nat → Int) (s : Platform)
    (qs rest : List QueueItem)
    (hq : QueueItem.sentinel ∉ qs) (hr : s.running = true) :
    run_event_loop wall s (qs ++ QueueItem.sentinel :: rest)
      = ({ (run_event_loop wall s qs).1 with running := false },
         (run_event_loop wall s qs).2)
    ∧ (run_event_loop wall s (qs ++ QueueItem.sentinel :: rest)).1.running = false
    ∧ (∀ more, run_loop wall
        (run_event_loop wall s (qs ++ QueueItem.sentinel :: rest)).1 more
        = ((run_event_loop wall s (qs ++ QueueItem.sentinel :: rest)).1, [])) := by
  have hmain : run_event_loop wall s (qs ++ QueueItem.sentinel :: rest)
      = ({ (run_event_loop wall s qs).1 with running := false },
         (run_event_loop wall s qs).2) := by
    simp only [run_event_loop]
    exact run_loop_append_sentinel wall qs _ rest hq hr
  refine ⟨hmain, by rw [hmain], ?_⟩
  intro more
  rw [hmain]
  exact run_loop_not_running wall _ rfl more

/-- C5 witness: one work event ahead of the sentinel, one behind it. -/
theorem C5_shutdown_sentinel_witness :
    run_event_loop (fun _ => 0) Platform.init
        [QueueItem.item (Event.RunWorkEvent 1 2), QueueItem.sentinel,
         QueueItem.item (Event.RunWorkEvent 3 4)]
      = ({ (run_event_loop (fun _ => 0) Platform.init
            [QueueItem.item (Event.RunWorkEvent 1 2)]).1 with running := false },
         (run_event_loop (fun _ => 0) Platform.init
            [QueueItem.item (Event.RunWorkEvent 1 2)]).2) := by
  have h := C5_shutdown_sentinel (fun _ => 0) Platform.init
    [QueueItem.item (Event.RunWorkEvent 1 2)]
    [QueueItem.item (Event.RunWorkEvent 3 4)] (by decide) rfl
  exact h.1

/-- C3 (code evaluation): the thread-affinity check reads the `name` attribute
of the imported function `threading.current_thread` instead of calling the
function, so it raises `AttributeError` on **every** thread — including the
designated loop thread, where the claim requires it to raise nothing — and
`on_provider_session_established` therefore raises `AttributeError` even on
the loop thread; moreover `on_trigger_immediate_query` performs no
thread-affinity check at all and proceeds normally from a foreign thread. -/
theorem C3_thread_affinity_check_broken (th : PyObject) (r : Requestor) :
    ensure_proper_thread th = Except.error (PyError.attributeError "name")
    ∧ ensure_proper_thread (PyObject.threadObject "event_loop")
        = Except.error (PyError.attributeError "name")
    ∧ on_provider_session_established (PyObject.threadObject "event_loop") r
        = Except.error (PyError.attributeError "name")
    ∧ on_trigger_immediate_query (PyObject.threadObject "worker") Requestor.init
        = Except.ok { Requestor.init with
            state := STATE_ESTABLISHING_PROVIDER_CONNECTION,
            provider_sessions := [(1, 1234)] } := by
  exact ⟨rfl, rfl, rfl, rfl⟩

/-- C4 (code evaluation): with the requestor in `STATE_IDLE`, the
provider-session-established call-in on the loop thread does not reach the
stale-call-in guard: the preceding thread-affinity check raises
`AttributeError` (instead of the claimed silent discard with a recorded
diagnostic and no exception). -/
theorem C4_stale_call_in_raises :
    Requestor.init.state = STATE_IDLE
    ∧ Requestor.init.state ≠ STATE_ESTABLISHING_PROVIDER_CONNECTION
    ∧ on_provider_session_established (PyObject.threadObject "event_loop") Requestor.init
        = Except.error (PyError.attributeError "name") := by
  exact ⟨rfl, by decide, rfl⟩

/-- C10: `Initialize` on an object built by `OtaRequestor.__init__` — which
overrides the base constructor without calling it and never assigns
`_ota_context` — always raises `AttributeError` for `_ota_context` while
evaluating the argument of `load_stored_ota_context`, before any driver call
or result handling; on an object built by `OtaRequestorInterface.__init__` it
completes normally, calling only `load_stored_ota_context` and returning
`NO_ERROR` with the object unchanged. -/
theorem C10_initialize_needs_interface_init (driver ip : Nat) :
    Initialize (requestor_init driver ip)
      = Except.error (PyError.attributeError "_ota_context")
    ∧ Initialize (interface_init driver ip)
      = Except.ok (interface_init driver ip, Status.NO_ERROR,
          [DriverCall.loadStoredOtaContext]) := by
  exact ⟨rfl, rfl⟩

end OtaModel
